import Mathlib

/-
Verification of the mpool fixed-size-class memory pool allocator.

The model below is a shallow embedding of mpool.c (the current version of the
file, the one using MPOOL_MALLOC / MPOOL_REALLOC / MPOOL_FREE and returning
NULL on errors) together with the constants of mpool.h.

Modeling conventions:
  - Pointers are byte addresses represented as Nat, with 0 playing the role
    of NULL (the code itself relies on mapped memory never being at address 0).
  - Memory is a map from byte addresses to machine words; only the first word
    of each cell is ever read or written by the allocator, so the map is read
    and written at those slots.  A store at address a models writing the
    8-byte word whose base is a.
  - mmap is an oracle function from the requested byte count to an optional
    base address; None models MAP_FAILED.  Each syscall site receives its own
    oracle argument.  MPOOL_REALLOC success is a Boolean oracle.  MPOOL_FREE
    and munmap are modeled as emitted release actions.
  - assert(...) failures, NULL returns, out-of-bounds array accesses and
    non-terminating loops are distinguished by the result type CRes.
  - C int arguments are modeled as Nat; the claims under study only involve
    non-negative sizes.  Unsigned 32-bit wraparound in iceil2 is modeled with
    explicit reduction mod 2^32.
-/

namespace Mpool

/-- Machine pointer width in bytes, sizeof(void *) on the 64-bit target the
code assumes. -/
def ptrSize : Nat := 8

/-- 2^32, the modulus of unsigned int arithmetic in iceil2. -/
def w32 : Nat := 4294967296

/-- Word-slot memory: byte address of a slot to the word stored there. -/
abbrev Mem := Nat → Nat

/-- Write the word v at slot address a. -/
def store (m : Mem) (a v : Nat) : Mem := fun x => if x = a then v else m x

/-- Result of running a piece of C code: normal value, NULL/error-code return,
a violated assert, an out-of-bounds memory access, or a loop that never
exits. -/
inductive CRes (α : Type) where
  | ok (v : α)
  | nullF
  | assertF
  | memUB
  | noTerm
deriving DecidableEq

/-- The mpool structure from mpool.h: pool count, pool-array capacity, class
size bounds, page size, the arena-pointer array ps, the parallel size array,
and the per-class free-list heads hs (length = number of classes). -/
structure mpool where
  ct : Nat
  pal : Nat
  min_pool : Nat
  max_pool : Nat
  pg_sz : Nat
  ps : List Nat
  sizes : List Nat
  hs : List Nat
deriving DecidableEq

/-- LG_POOL_AUTO as defined (default 1) in mpool.h. -/
def LG_POOL_AUTO : Nat := 1

/-- iceil2 from mpool.c: base-2 integer ceiling on unsigned 32-bit integers
(Hackers Delight clp2), with unsigned wraparound modeled explicitly. -/
def iceil2 (x : Nat) : Nat :=
  let a := (x + (w32 - 1)) % w32
  let b := a ||| (a >>> 1)
  let c := b ||| (b >>> 2)
  let d := c ||| (c >>> 4)
  let e := d ||| (d >>> 8)
  let f := e ||| (e >>> 16)
  (f + 1) % w32

/-- The size requested from mmap by mpool_new_pool:
get_mmap(sz > total_sz ? sz : total_sz). -/
def mmapRequest (sz total : Nat) : Nat := if total < sz then sz else total

/-- The cell-threading loop of mpool_new_pool.  Arguments mirror the C local
variables: n is the remaining iteration count (starting at lim =
total_sz / sz), i the iteration index, o the current word offset, last the
value read back after the previous write (0 = NULL initially).  Each step
checks the internal assert(last == pool[o]), then writes at word offset
o2 = (i*sz)/sizeof(void *) the address of the slot sz bytes further on,
namely pool + 8*o2 + 8*(sz/8). -/
def npLoop (b sz : Nat) : Nat → Nat → Nat → Nat → Mem → CRes (Nat × Mem)
  | 0, _, o, _, mem => .ok (o, mem)
  | n + 1, i, o, last, mem =>
      if last ≠ 0 ∧ mem (b + 8 * o) ≠ last then .assertF
      else
        let o2 := i * sz / 8
        let mem2 := store mem (b + 8 * o2) (b + 8 * o2 + 8 * (sz / 8))
        npLoop b sz n (i + 1) o2 (mem2 (b + 8 * o2)) mem2

/-- mpool_new_pool from mpool.c: mmap max(sz, total) bytes, return NULL if the
mapping fails (get_mmap returns NULL on MAP_FAILED, and the function checks
p == NULL), assert sz > sizeof(void *), then thread a free list of
total / sz cells through the region and null-terminate it by overwriting the
last written slot with NULL.  Returns the base address. -/
def mpool_new_pool (sz total : Nat) (acq : Nat → Option Nat) (mem : Mem) :
    CRes (Nat × Mem) :=
  match acq (mmapRequest sz total) with
  | none => .nullF
  | some b =>
      if b = 0 then .nullF
      else if sz ≤ ptrSize then .assertF
      else
        match npLoop b sz (total / sz) 0 0 0 mem with
        | .ok (o, mem2) => .ok (b, store mem2 (b + 8 * o) 0)
        | .nullF => .nullF
        | .assertF => .assertF
        | .memUB => .memUB
        | .noTerm => .noTerm

/-- The appending tail of add_pool: write p and sz at index ct of the two
bookkeeping arrays and bump ct.  The C code performs the stores without any
bounds check; writing past the actual array length is an out-of-bounds heap
write, reported here as memUB. -/
def addAppend (mp : mpool) (p sz : Nat) : mpool × CRes Unit :=
  if mp.ct < mp.ps.length ∧ mp.ct < mp.sizes.length then
    ({ mp with ps := mp.ps.set mp.ct p, sizes := mp.sizes.set mp.ct sz,
               ct := mp.ct + 1 }, .ok ())
  else (mp, .memUB)

/-- add_pool from mpool.c.  Asserts p and sz > 0.  When the array is full it
first doubles mp.pal and then reallocates both bookkeeping arrays
(MPOOL_REALLOC, missing from src, is the overridable growable-array
primitive of the spec; its success is the oracle rOk; on success the old
contents are preserved and the capacity doubles).  Note that on reallocation
failure the function returns -1 with mp.pal already doubled and the arrays
unchanged, exactly as the C code does. -/
def add_pool (mp : mpool) (p sz : Nat) (rOk : Bool) : mpool × CRes Unit :=
  if p = 0 then (mp, .assertF)
  else if sz = 0 then (mp, .assertF)
  else if mp.ct = mp.pal then
    if rOk then
      addAppend { mp with pal := 2 * mp.pal,
                          ps := mp.ps ++ List.replicate mp.pal 0,
                          sizes := mp.sizes ++ List.replicate mp.pal 0 } p sz
    else ({ mp with pal := 2 * mp.pal }, .nullF)
  else addAppend mp p sz

/-- The mpool value built by mpool_init: ct = max2 - min2 + 1 classes, array
capacity iceil2 ct, class bounds 2^min2 and 2^max2, and all three arrays
zero-filled (bzero in the C code). -/
def initMP (min2 max2 pgsz : Nat) : mpool :=
  { ct := max2 - min2 + 1, pal := iceil2 (max2 - min2 + 1),
    min_pool := 2 ^ min2, max_pool := 2 ^ max2, pg_sz := pgsz,
    ps := List.replicate (iceil2 (max2 - min2 + 1)) 0,
    sizes := List.replicate (iceil2 (max2 - min2 + 1)) 0,
    hs := List.replicate (max2 - min2 + 1) 0 }

/-- mpool_init from mpool.c.  pgsz stands for sysconf(_SC_PAGESIZE); the
Boolean oracle is the joint success of the three MPOOL_MALLOC calls.  The C
count is an int and the code asserts ct > 0; with Nat arguments and
min2 ≤ max2 (the documented precondition) the count is always positive. -/
def mpool_init (min2 max2 pgsz : Nat) (mallocOk : Bool) : CRes mpool :=
  if mallocOk then .ok (initMP min2 max2 pgsz) else .nullF

/-- The size-class selection loop shared textually by mpool_alloc:
for (i=0, p=mp->min_pool; ; i++, p*=2) if (p > sz) break.  The C loop has no
bound; fuel sz + 1 is always sufficient when min_pool is at least 1, and
running out of fuel (possible only for min_pool = 0, where the C loop spins
forever) yields none. -/
def szceilLoop : Nat → Nat → Nat → Nat → Option (Nat × Nat)
  | 0, _, _, _ => none
  | fuel + 1, p, i, sz => if sz < p then some (i, p) else szceilLoop fuel (p * 2) (i + 1) sz

/-- The closing lines of mpool_alloc: assert(*cur > (void *)4096), advance the
class head to *cur and hand out cur. -/
def allocFinish (mp : mpool) (mem : Mem) (cur i : Nat) : CRes Nat × mpool × Mem :=
  if mem cur ≤ 4096 then (.assertF, mp, mem)
  else if i < mp.hs.length then
    (.ok cur, { mp with hs := mp.hs.set i (mem cur) }, mem)
  else (.memUB, mp, mem)

/-- mpool_alloc after the lazy-initialization step: assert(cur); if the cell
at cur is the end of its free list, build a new pool of the same cell size,
link it in through *cur and register it with add_pool (returning NULL if
registration fails, with the link already written); finally pop cur. -/
def allocTail (mp : mpool) (mem : Mem) (cur i szceil : Nat)
    (m2 : Nat → Option Nat) (rOk : Bool) : CRes Nat × mpool × Mem :=
  if cur = 0 then (.assertF, mp, mem)
  else if mem cur = 0 then
    match mpool_new_pool szceil mp.pg_sz m2 mem with
    | .ok (np, mem2) =>
        let mem3 := store mem2 cur np
        if np = 0 then (.assertF, mp, mem3)
        else
          match add_pool mp np szceil rOk with
          | (mp2, .ok _) => allocFinish mp2 mem3 cur i
          | (mp2, .nullF) => (.nullF, mp2, mem3)
          | (mp2, .assertF) => (.assertF, mp2, mem3)
          | (mp2, .memUB) => (.memUB, mp2, mem3)
          | (mp2, .noTerm) => (.noTerm, mp2, mem3)
    | .nullF => (.nullF, mp, mem)
    | .assertF => (.assertF, mp, mem)
    | .memUB => (.memUB, mp, mem)
    | .noTerm => (.noTerm, mp, mem)
  else allocFinish mp mem cur i

/-- mpool_alloc from mpool.c.  Requests at or above max_pool bypass the size
classes: they are mmapped directly (oracle m1 at the exact size) and returned
with no other bookkeeping.  Smaller requests select a class with szceilLoop,
lazily build the class arena if its head is NULL (recording base and size in
the class slot of ps and sizes), then run allocTail.  m1 serves the first
get_mmap call of an execution and m2 the second. -/
def mpool_alloc (mp : mpool) (mem : Mem) (sz : Nat)
    (m1 m2 : Nat → Option Nat) (rOk : Bool) : CRes Nat × mpool × Mem :=
  if mp.max_pool ≤ sz then
    match m1 sz with
    | none => (.nullF, mp, mem)
    | some b => (.ok b, mp, mem)
  else
    match szceilLoop (sz + 1) mp.min_pool 0 sz with
    | none => (.noTerm, mp, mem)
    | some (i, szceil) =>
        if szceil = 0 then (.assertF, mp, mem)
        else if i < mp.hs.length then
          if mp.hs.getD i 0 = 0 then
            match mpool_new_pool szceil mp.pg_sz m1 mem with
            | .ok (pool, mem1) =>
                if i < mp.ps.length ∧ i < mp.sizes.length then
                  allocTail { mp with ps := mp.ps.set i pool,
                                      hs := mp.hs.set i pool,
                                      sizes := mp.sizes.set i szceil }
                    mem1 pool i szceil m2 rOk
                else (.memUB, mp, mem1)
            | .nullF => (.nullF, mp, mem)
            | .assertF => (.assertF, mp, mem)
            | .memUB => (.memUB, mp, mem)
            | .noTerm => (.noTerm, mp, mem)
          else allocTail mp mem (mp.hs.getD i 0) i szceil m2 rOk
        else (.memUB, mp, mem)

/-- Result of mpool_repool: the updated structure and memory, the list of
(address, size) regions handed back to munmap, and the run outcome. -/
structure RRepool where
  mp : mpool
  mem : Mem
  unmaps : List (Nat × Nat)
  res : CRes Unit

/-- mpool_repool from mpool.c.  Sizes above max_pool are munmapped directly
(munmap failure is logged and non-fatal, so no failure branch here).
Otherwise szceil is computed from iceil2 and clamped to min_pool, and the
cell is pushed: its first word receives the current head hs[i] and hs[i] is
set to it.  The C local i is initialized to 0 and never reassigned, so the
push always targets list 0. -/
def mpool_repool (mp : mpool) (mem : Mem) (p sz : Nat) : RRepool :=
  if mp.max_pool < sz then
    { mp := mp, mem := mem, unmaps := [(p, sz)], res := .ok () }
  else
    let szceil0 := iceil2 sz
    let szceil := if mp.min_pool < szceil0 then szceil0 else mp.min_pool
    let i := 0
    if p = 0 then { mp := mp, mem := mem, unmaps := [], res := .memUB }
    else if i < mp.hs.length then
      { mp := { mp with hs := mp.hs.set i p },
        mem := store mem p (mp.hs.getD i 0),
        unmaps := [], res := .ok () }
    else { mp := mp, mem := mem, unmaps := [], res := .memUB }

/-- Heap objects owned by the pool set and releasable at teardown.
Modelled from the spec: MPOOL_FREE, the overridable bookkeeping release
primitive whose definition is not under src, releases the object passed to
it; mpool_free passes it mp.ps and mp and nothing else. -/
inductive TdObj where
  | psArray
  | sizesArray
  | poolStruct
deriving DecidableEq

/-- One release action performed by teardown: an munmap of an arena, or a
release of a bookkeeping heap object. -/
inductive TdAction where
  | unmapArena (base size : Nat)
  | releaseObj (o : TdObj)
deriving DecidableEq

/-- The arena loop of mpool_free, walking the first ct entries of ps and
sizes in index order: NULL arena pointers are skipped; for the others the
code asserts sizes[i] > 0 and munmaps max(size, pg_sz) bytes. -/
def freeArenas (pgsz : Nat) : List Nat → List Nat → CRes (List TdAction)
  | [], _ => .ok []
  | p :: ps, szs =>
      if p = 0 then freeArenas pgsz ps szs.tail
      else
        let sz := szs.headD 0
        if sz = 0 then .assertF
        else
          match freeArenas pgsz ps szs.tail with
          | .ok acts => .ok (.unmapArena p (if pgsz ≤ sz then sz else pgsz) :: acts)
          | .nullF => .nullF
          | .assertF => .assertF
          | .memUB => .memUB
          | .noTerm => .noTerm

/-- mpool_free from mpool.c: release every non-NULL arena among the first ct
entries using its recorded size rounded up to pg_sz, then MPOOL_FREE the
arena-pointer array and the mpool structure.  The sizes array is not passed
to MPOOL_FREE anywhere in the function. -/
def mpool_free (mp : mpool) : CRes (List TdAction) :=
  match freeArenas mp.pg_sz (mp.ps.take mp.ct) (mp.sizes.take mp.ct) with
  | .ok acts => .ok (acts ++ [.releaseObj .psArray, .releaseObj .poolStruct])
  | .nullF => .nullF
  | .assertF => .assertF
  | .memUB => .memUB
  | .noTerm => .noTerm

/-- Region copy modeling memcpy(dst, src, n): every slot based inside the
destination region takes the value of the corresponding source slot. -/
def memcpyRegion (mem : Mem) (dst src n : Nat) : Mem :=
  fun a => if dst ≤ a ∧ a < dst + n then mem (src + (a - dst)) else mem a

/-- Result of mpool_realloc: outcome and new pointer, final structure and
memory, the byte count passed to memcpy, and any munmaps done by the
embedded repool. -/
structure RRealloc where
  res : CRes Nat
  mp : mpool
  mem : Mem
  copied : Nat
  unmaps : List (Nat × Nat)

/-- mpool_realloc from mpool.c: allocate new_sz, return NULL on failure,
otherwise memcpy(r, p, old_sz) - the third argument is old_sz - and repool
the old pointer with old_sz. -/
def mpool_realloc (mp : mpool) (mem : Mem) (p old_sz new_sz : Nat)
    (m1 m2 : Nat → Option Nat) (rOk : Bool) : RRealloc :=
  match mpool_alloc mp mem new_sz m1 m2 rOk with
  | (.ok r, mp1, mem1) =>
      let mem2 := memcpyRegion mem1 r p old_sz
      let rp := mpool_repool mp1 mem2 p old_sz
      { res := .ok r, mp := rp.mp, mem := rp.mem, copied := old_sz,
        unmaps := rp.unmaps }
  | (e, mp1, mem1) => { res := e, mp := mp1, mem := mem1, copied := 0, unmaps := [] }

/-- Pure description of the writes done by the threading loop for a cell size
that is a multiple of the word size: n writes starting at cell index i, each
linking cell k to cell k + 1. -/
def chainWrites (b sz : Nat) : Nat → Nat → Mem → Mem
  | 0, _, mem => mem
  | n + 1, i, mem => chainWrites b sz n (i + 1) (store mem (b + i * sz) (b + (i + 1) * sz))

/-- Base address of a successful mpool_new_pool result, 0 otherwise. -/
def cresBase (r : CRes (Nat × Mem)) : Nat :=
  match r with
  | .ok (b, _) => b
  | _ => 0

/-- Memory of a successful mpool_new_pool result read at a, 0 otherwise. -/
def cresMemAt (r : CRes (Nat × Mem)) (a : Nat) : Nat :=
  match r with
  | .ok (_, m) => m a
  | _ => 0

/-- Whether a mpool_new_pool result is a normal (non-NULL, non-assert)
return. -/
def cresIsOk (r : CRes (Nat × Mem)) : Bool :=
  match r with
  | .ok _ => true
  | _ => false

-- Concrete states used by the individual evaluations below.

/-- An all-zero memory. -/
def mem0 : Mem := fun _ => 0

/-- A pool set as produced by mpool_init(4, 11) on a 4096-byte page system
after some activity: classes 16 .. 2048, class 0 head at 100000, class 1
free list 200000 -> 200032 -> NULL. -/
def mpC1 : mpool :=
  { ct := 8, pal := 8, min_pool := 16, max_pool := 2048, pg_sz := 4096,
    ps := [100000, 200000, 0, 0, 0, 0, 0, 0],
    sizes := [16, 32, 0, 0, 0, 0, 0, 0],
    hs := [100000, 200000, 0, 0, 0, 0, 0, 0] }

/-- Memory backing mpC1: class-0 list 100000 -> NULL, class-1 list
200000 -> 200032 -> NULL. -/
def memC1 : Mem := store (store (store mem0 100000 0) 200000 200032) 200032 0

/-- A one-class pool set (cells of 16 bytes) with a free cell at 100016
already threaded, used by the realloc evaluation. -/
def mpC2 : mpool :=
  { ct := 1, pal := 1, min_pool := 16, max_pool := 2048, pg_sz := 4096,
    ps := [100000], sizes := [16], hs := [100016] }

/-- Memory backing mpC2: free list 100016 -> 100032 -> NULL. -/
def memC2 : Mem := store (store mem0 100016 100032) 100032 0

/-- Realloc of a 100-byte object at 300000 down to 10 bytes on mpC2. -/
def c2run : RRealloc :=
  mpool_realloc mpC2 memC2 300000 100 10 (fun _ => none) (fun _ => none) true

/-- Repool of a 20-byte cell at 300000 into mpC1. -/
def c1run : RRepool := mpool_repool mpC1 memC1 300000 20

/-- After the repool of c1run, an allocation of the same 20-byte class. -/
def c3run : CRes Nat × mpool × Mem :=
  mpool_alloc c1run.mp c1run.mem 20 (fun _ => none) (fun _ => none) true

/-- A bypass allocation of exactly max_pool bytes on mpC2, mapped at
500000. -/
def c4run : CRes Nat × mpool × Mem :=
  mpool_alloc mpC2 mem0 2048 (fun _ => some 500000) (fun _ => none) true

/-- A pool set with one sub-page arena, one NULL (never built) class slot and
one large registered arena, for the teardown evaluation. -/
def mpC8 : mpool :=
  { ct := 3, pal := 4, min_pool := 16, max_pool := 2048, pg_sz := 4096,
    ps := [100000, 0, 200000, 0], sizes := [16, 0, 8192, 0],
    hs := [100016, 0, 0] }

/-- The exact action list produced by tearing down mpC8. -/
def c8acts : List TdAction :=
  [.unmapArena 100000 4096, .unmapArena 200000 8192,
   .releaseObj .psArray, .releaseObj .poolStruct]

-- The run used to examine failure handling of mpool_alloc: one class of
-- 16-byte cells, 32-byte pages (two cells per arena), array capacity 1.

/-- Fresh pool set from mpool_init(4, 4) with a page size of 32. -/
def c5mp0 : mpool :=
  { ct := 1, pal := 1, min_pool := 16, max_pool := 16, pg_sz := 32,
    ps := [0], sizes := [0], hs := [0] }

/-- First allocation: lazily builds the class arena at 100000. -/
def c5s1 : CRes Nat × mpool × Mem :=
  mpool_alloc c5mp0 mem0 10 (fun _ => some 100000) (fun _ => none) true

/-- Second allocation: the arena is exhausted; a new arena at 200000 is built
and linked, but registration fails (bookkeeping realloc failure). -/
def c5s2 : CRes Nat × mpool × Mem :=
  mpool_alloc c5s1.2.1 c5s1.2.2 10 (fun _ => none) (fun _ => some 200000) false

/-- Third allocation, after the failure. -/
def c5s3 : CRes Nat × mpool × Mem :=
  mpool_alloc c5s2.2.1 c5s2.2.2 10 (fun _ => none) (fun _ => none) true

/-- Fourth allocation. -/
def c5s4 : CRes Nat × mpool × Mem :=
  mpool_alloc c5s3.2.1 c5s3.2.2 10 (fun _ => none) (fun _ => none) true

/-- Fifth allocation: exhaustion again; the new arena at 300000 is built and
linked and registration is attempted with a healthy allocator, but the
bookkeeping write lands out of bounds. -/
def c5s5 : CRes Nat × mpool × Mem :=
  mpool_alloc c5s4.2.1 c5s4.2.2 10 (fun _ => none) (fun _ => some 300000) true

-- Helper lemmas.

lemma store_self (m : Mem) (a v : Nat) : store m a v a = v := by simp [store]

lemma store_other (m : Mem) (a v x : Nat) (h : x ≠ a) : store m a v x = m x := by
  simp [store, h]

lemma getD_replicate (x d : Nat) : ∀ n i, i < n → (List.replicate n x).getD i d = x := by
  intro n
  induction n with
  | zero => intro i h; omega
  | succ m ih =>
      intro i h
      cases i with
      | zero => rfl
      | succ j => exact ih j (by omega)

lemma szceilLoop_total : ∀ (fuel p i sz : Nat), 0 < p → sz < p * 2 ^ fuel →
    ∃ j c, szceilLoop (fuel + 1) p i sz = some (j, c) := by
  intro fuel
  induction fuel with
  | zero =>
      intro p i sz _ h
      refine ⟨i, p, ?_⟩
      simp only [pow_zero, Nat.mul_one] at h
      rw [szceilLoop, if_pos h]
  | succ f ih =>
      intro p i sz hp h
      by_cases hlt : sz < p
      · exact ⟨i, p, by rw [szceilLoop, if_pos hlt]⟩
      · have h2 : sz < p * 2 * 2 ^ f := by
          calc sz < p * 2 ^ (f + 1) := h
          _ = p * 2 * 2 ^ f := by ring
        obtain ⟨j, c, hj⟩ := ih (p * 2) (i + 1) sz (by omega) h2
        refine ⟨j, c, ?_⟩
        rw [szceilLoop, if_neg hlt]
        exact hj

lemma szceilLoop_char : ∀ (fuel p i sz j c : Nat),
    szceilLoop fuel p i sz = some (j, c) →
    i ≤ j ∧ c = p * 2 ^ (j - i) ∧ sz < c ∧
      ∀ k, i ≤ k → k < j → p * 2 ^ (k - i) ≤ sz := by
  intro fuel
  induction fuel with
  | zero => intro p i sz j c h; simp [szceilLoop] at h
  | succ f ih =>
      intro p i sz j c h
      rw [szceilLoop] at h
      by_cases hlt : sz < p
      · rw [if_pos hlt] at h
        simp only [Option.some.injEq, Prod.mk.injEq] at h
        obtain ⟨rfl, rfl⟩ := h
        exact ⟨le_refl _, by simp, hlt,
          fun k hk1 hk2 => absurd (lt_of_le_of_lt hk1 hk2) (lt_irrefl _)⟩
      · rw [if_neg hlt] at h
        obtain ⟨h1, h2, h3, h4⟩ := ih (p * 2) (i + 1) sz j c h
        have hij : i ≤ j := by omega
        have hsub : j - i = (j - (i + 1)) + 1 := by omega
        refine ⟨hij, ?_, h3, ?_⟩
        · rw [h2, hsub, pow_succ]
          ring
        · intro k hk1 hk2
          rcases Nat.eq_or_lt_of_le hk1 with rfl | hk3
          · simpa using not_lt.mp hlt
          · have h5 := h4 k (by omega) hk2
            have hsub2 : k - i = (k - (i + 1)) + 1 := by omega
            calc p * 2 ^ (k - i) = p * 2 * 2 ^ (k - (i + 1)) := by
                  rw [hsub2, pow_succ]; ring
              _ ≤ sz := h5

lemma npLoop_chain (b s sz : Nat) (hsz : sz = 8 * s) :
    ∀ (n i o last : Nat) (mem : Mem), (last = 0 ∨ last = mem (b + 8 * o)) →
      npLoop b sz n i o last mem =
        .ok (if n = 0 then o else (i + n - 1) * s, chainWrites b sz n i mem) := by
  intro n
  induction n with
  | zero => intro i o last mem _; simp [npLoop, chainWrites]
  | succ m ih =>
      intro i o last mem hinv
      rw [npLoop]
      have hassert : ¬(last ≠ 0 ∧ mem (b + 8 * o) ≠ last) := by
        rcases hinv with h | h
        · intro hc; exact hc.1 h
        · intro hc; exact hc.2 h.symm
      rw [if_neg hassert]
      have ho2 : i * sz / 8 = i * s := by
        rw [hsz]
        have h1 : i * (8 * s) = i * s * 8 := by ring
        rw [h1, Nat.mul_div_cancel _ (by omega : 0 < 8)]
      have hdiv : sz / 8 = s := by rw [hsz, Nat.mul_div_cancel_left _ (by omega : 0 < 8)]
      simp only [ho2, hdiv]
      have haddr : b + 8 * (i * s) = b + i * sz := by rw [hsz]; ring
      rw [haddr]
      have hval : b + i * sz + 8 * s = b + (i + 1) * sz := by rw [hsz]; ring
      rw [hval]
      rw [ih (i + 1) (i * s) (store mem (b + i * sz) (b + (i + 1) * sz) (b + i * sz))
        (store mem (b + i * sz) (b + (i + 1) * sz)) (Or.inr (by rw [haddr]))]
      congr 1
      rw [Prod.mk.injEq]
      refine ⟨?_, ?_⟩
      · rcases Nat.eq_zero_or_pos m with rfl | hm
        · simp
        · rw [if_neg (by omega : ¬m = 0), if_neg (by omega : ¬m + 1 = 0)]
          congr 1
          omega
      · rw [chainWrites]

lemma chainWrites_frame (b sz : Nat) :
    ∀ (n i : Nat) (mem : Mem) (a : Nat), (∀ k, i ≤ k → k < i + n → a ≠ b + k * sz) →
      chainWrites b sz n i mem a = mem a := by
  intro n
  induction n with
  | zero => intro i mem a _; rfl
  | succ m ih =>
      intro i mem a h
      rw [chainWrites]
      rw [ih (i + 1) _ a (fun k hk1 hk2 => h k (by omega) (by omega))]
      exact store_other _ _ _ _ (h i (le_refl i) (by omega))

lemma chainWrites_read (b sz : Nat) (hpos : 0 < sz) :
    ∀ (n i : Nat) (mem : Mem) (k : Nat), i ≤ k → k < i + n →
      chainWrites b sz n i mem (b + k * sz) = b + (k + 1) * sz := by
  intro n
  induction n with
  | zero => intro i mem k h1 h2; omega
  | succ m ih =>
      intro i mem k h1 h2
      rw [chainWrites]
      rcases Nat.eq_or_lt_of_le h1 with heq | hlt
      · subst heq
        rw [chainWrites_frame]
        · exact store_self _ _ _
        · intro k2 hk1 hk2 hne
          have h3 : i * sz = k2 * sz := by omega
          have h4 : i = k2 := Nat.eq_of_mul_eq_mul_right hpos h3
          omega
      · exact ih (i + 1) _ k (by omega) (by omega)

lemma new_pool_spec (sz total b s : Nat) (acq : Nat → Option Nat) (mem : Mem)
    (hsz : sz = 8 * s) (hgt : ptrSize < sz)
    (hacq : acq (mmapRequest sz total) = some b) (hb : b ≠ 0) :
    mpool_new_pool sz total acq mem =
      .ok (b, store (chainWrites b sz (total / sz) 0 mem)
             (b + (total / sz - 1) * sz) 0) := by
  have hloop := npLoop_chain b s sz hsz (total / sz) 0 0 0 mem (Or.inl rfl)
  have hle : ¬sz ≤ ptrSize := by omega
  simp only [mpool_new_pool, hacq, if_neg hb, if_neg hle, hloop]
  have h1 : (if total / sz = 0 then 0 else (0 + total / sz - 1) * s) =
      (total / sz - 1) * s := by
    rcases Nat.eq_zero_or_pos (total / sz) with h | h
    · simp [h]
    · rw [if_neg (by omega)]
      congr 1
      omega
  rw [h1]
  have h2 : b + 8 * ((total / sz - 1) * s) = b + (total / sz - 1) * sz := by
    rw [hsz]; ring
  rw [h2]

-- Claim theorems.

/-- Claim C1: the claim states that mpool_repool computes the class index by
the same strict-greater-than rule as allocation and pushes the cell onto that
list.  The code does not: its index variable stays 0.  Evaluated here: for
sz = 20 the allocation rule of mpool_alloc selects class 1 (cell size 32), yet
repooling a 20-byte cell at 300000 into mpC1 leaves the class 1 head at
200000 untouched and pushes 300000 onto the class 0 list (the cell receives
the old class 0 head 100000 and becomes the class 0 head). -/
theorem repool_pushes_class_zero :
    szceilLoop (20 + 1) mpC1.min_pool 0 20 = some (1, 32) ∧
    c1run.mp.hs.getD 0 0 = 300000 ∧
    c1run.mp.hs.getD 1 0 = 200000 ∧
    c1run.mem 300000 = 100000 ∧
    c1run.unmaps = [] ∧
    c1run.res = .ok () ∧
    (1 : Nat) ≠ 0 := by decide

/-- Claim C2: the claim states that mpool_realloc copies min(old_sz, new_sz)
bytes.  The code passes old_sz to memcpy unconditionally.  Evaluated here:
shrinking a 100-byte object to 10 bytes on mpC2 succeeds (new cell 100016)
and copies 100 bytes, not min(100, 10) = 10, overrunning the 16-byte
destination cell. -/
theorem realloc_copies_old_size :
    c2run.res = .ok 100016 ∧
    c2run.copied = 100 ∧
    min 100 10 = 10 ∧
    c2run.copied ≠ min 100 10 := by decide

/-- Claim C3: the claim states LIFO reuse for every size class: a repooled
cell is the next one returned for the same class.  Because mpool_repool
always pushes onto list 0, this fails for any class other than 0.  Evaluated
here: after repooling 20-byte cell 300000 (class 1) into mpC1, allocating 20
bytes returns the old class 1 head 200000, not 300000. -/
theorem repool_alloc_not_lifo_other_class :
    szceilLoop (20 + 1) mpC1.min_pool 0 20 = some (1, 32) ∧
    c3run.1 = .ok 200000 ∧
    (200000 : Nat) ≠ 300000 := by decide

/-- Claim C4: the claim states that with LG_POOL_AUTO nonzero every large
bypass allocation is recorded in the bookkeeping arrays and released by
mpool_free.  The bypass branch of mpool_alloc performs no registration at
all.  Evaluated here: LG_POOL_AUTO is 1, a bypass allocation of 2048 bytes
on mpC2 returns the mapping at 500000 and leaves the structure completely
unchanged, and mpool_free releases only the registered class arena at
100000, the pointer array and the structure; region 500000 is never
unmapped. -/
theorem bypass_alloc_never_tracked :
    LG_POOL_AUTO ≠ 0 ∧
    mpC2.max_pool ≤ 2048 ∧
    c4run.1 = .ok 500000 ∧
    c4run.2.1 = mpC2 ∧
    mpool_free mpC2 =
      .ok [.unmapArena 100000 4096, .releaseObj .psArray, .releaseObj .poolStruct] := by
  decide

/-- Claim C5 counterexample: the claim states that after a failed
bookkeeping-array growth the pool set remains in a consistent, reusable
state.  In the run below, allocation 2 fails because registration of the
refill arena fails, and mpool_alloc doubles mp.pal before detecting the
failure while both arrays keep their old one-slot capacity; allocations 3
and 4 still succeed, but allocation 5, a perfectly ordinary request on a
healthy system, attempts to register the next arena at index 1 of the
one-slot arrays: an out-of-bounds heap write. -/
theorem failed_growth_corrupts_capacity :
    mpool_init 4 4 32 true = .ok c5mp0 ∧
    c5s1.1 = .ok 100000 ∧
    c5s2.1 = .nullF ∧
    c5s2.2.1.pal = 2 ∧
    c5s2.2.1.ps.length = 1 ∧
    c5s3.1 = .ok 100016 ∧
    c5s4.1 = .ok 200000 ∧
    c5s5.1 = .memUB := by decide

/-- Claim C5 (amended): when building or registering a needed arena fails,
mpool_alloc reports NULL and hands out no cell; a failed arena build leaves
the state exactly unchanged, and a failed registration leaves ps, sizes, ct
and the free-list heads unchanged with the fully threaded new arena linked
through the old tail cell - but it also leaves mp.pal doubled while the
arrays keep their old capacity, so the state is not fully reusable: a later
registration writes out of bounds (see the counterexample). -/
theorem alloc_failure_reports_null (mp : mpool) (mem : Mem) (sz i c s : Nat)
    (m1 m2 : Nat → Option Nat)
    (hszlt : sz < mp.max_pool)
    (hloop : szceilLoop (sz + 1) mp.min_pool 0 sz = some (i, c))
    (hc8 : ptrSize < c) (hcs : c = ptrSize * s)
    (hhs : i < mp.hs.length) :
    (mp.hs.getD i 0 = 0 → m1 (mmapRequest c mp.pg_sz) = none → ∀ rOk,
       mpool_alloc mp mem sz m1 m2 rOk = (.nullF, mp, mem)) ∧
    (mp.hs.getD i 0 ≠ 0 → mem (mp.hs.getD i 0) = 0 →
       m2 (mmapRequest c mp.pg_sz) = none → ∀ rOk,
       mpool_alloc mp mem sz m1 m2 rOk = (.nullF, mp, mem)) ∧
    (∀ np, mp.hs.getD i 0 ≠ 0 → mem (mp.hs.getD i 0) = 0 →
       m2 (mmapRequest c mp.pg_sz) = some np → np ≠ 0 → mp.ct = mp.pal →
       ∃ mem2, mpool_new_pool c mp.pg_sz m2 mem = .ok (np, mem2) ∧
         mpool_alloc mp mem sz m1 m2 false =
           (.nullF, { mp with pal := 2 * mp.pal }, store mem2 (mp.hs.getD i 0) np) ∧
         (∀ k, k + 1 < mp.pg_sz / c → mem2 (np + k * c) = np + (k + 1) * c) ∧
         mem2 (np + (mp.pg_sz / c - 1) * c) = 0) := by
  have hc0 : ¬c = 0 := by omega
  have hcs8 : c = 8 * s := by simpa [ptrSize] using hcs
  have hcpos : 0 < c := by omega
  refine ⟨?_, ?_, ?_⟩
  · intro hz hm1 rOk
    have hnp : mpool_new_pool c mp.pg_sz m1 mem = .nullF := by
      simp only [mpool_new_pool, hm1]
    simp only [mpool_alloc, hloop]
    rw [if_neg (by omega : ¬mp.max_pool ≤ sz), if_neg hc0, if_pos hhs, if_pos hz, hnp]
  · intro hz hmem hm2 rOk
    have hnp : mpool_new_pool c mp.pg_sz m2 mem = .nullF := by
      simp only [mpool_new_pool, hm2]
    simp only [mpool_alloc, hloop]
    rw [if_neg (by omega : ¬mp.max_pool ≤ sz), if_neg hc0, if_pos hhs, if_neg hz]
    simp only [allocTail, if_neg hz, if_pos hmem, hnp]
  · intro np hz hmem hm2 hnp0 hfull
    have hnp := new_pool_spec c mp.pg_sz np s m2 mem hcs8 hc8 hm2 hnp0
    refine ⟨_, hnp, ?_, ?_, ?_⟩
    · simp only [mpool_alloc, hloop]
      rw [if_neg (by omega : ¬mp.max_pool ≤ sz), if_neg hc0, if_pos hhs, if_neg hz]
      simp only [allocTail, if_neg hz, if_pos hmem, hnp, if_neg hnp0]
      simp only [add_pool, if_neg hnp0, if_neg hc0, if_pos hfull, Bool.false_eq_true,
        if_neg (by simp : ¬(False : Prop))]
    · intro k hk
      rw [store_other]
      · exact chainWrites_read np c hcpos (mp.pg_sz / c) 0 mem k (Nat.zero_le _) (by omega)
      · intro heq
        have h1 : k * c = (mp.pg_sz / c - 1) * c := by omega
        have h2 : k = mp.pg_sz / c - 1 := Nat.eq_of_mul_eq_mul_right hcpos h1
        omega
    · exact store_self _ _ _

/-- Claim C5 witness: the amended failure theorem applied to the concrete
one-class pool set of the counterexample run. -/
theorem alloc_failure_reports_null_witness :
    (c5mp0.hs.getD 0 0 = 0 →
       (fun _ => (none : Option Nat)) (mmapRequest 16 c5mp0.pg_sz) = none → ∀ rOk,
       mpool_alloc c5mp0 mem0 10 (fun _ => none) (fun _ => none) rOk =
         (.nullF, c5mp0, mem0)) ∧
    (c5mp0.hs.getD 0 0 ≠ 0 → mem0 (c5mp0.hs.getD 0 0) = 0 →
       (fun _ => (none : Option Nat)) (mmapRequest 16 c5mp0.pg_sz) = none → ∀ rOk,
       mpool_alloc c5mp0 mem0 10 (fun _ => none) (fun _ => none) rOk =
         (.nullF, c5mp0, mem0)) ∧
    (∀ np, c5mp0.hs.getD 0 0 ≠ 0 → mem0 (c5mp0.hs.getD 0 0) = 0 →
       (fun _ => (none : Option Nat)) (mmapRequest 16 c5mp0.pg_sz) = some np → np ≠ 0 →
       c5mp0.ct = c5mp0.pal →
       ∃ mem2, mpool_new_pool 16 c5mp0.pg_sz (fun _ => none) mem0 = .ok (np, mem2) ∧
         mpool_alloc c5mp0 mem0 10 (fun _ => none) (fun _ => none) false =
           (.nullF, { c5mp0 with pal := 2 * c5mp0.pal },
            store mem2 (c5mp0.hs.getD 0 0) np) ∧
         (∀ k, k + 1 < c5mp0.pg_sz / 16 → mem2 (np + k * 16) = np + (k + 1) * 16) ∧
         mem2 (np + (c5mp0.pg_sz / 16 - 1) * 16) = 0) :=
  alloc_failure_reports_null c5mp0 mem0 10 0 16 2 (fun _ => none) (fun _ => none)
    (by decide) (by decide) (by decide) (by decide) (by decide)

/-- Claim C6: for a request below the maximum class size, the class selection
loop of mpool_alloc picks the least index i with 2 to the (min2 + i) strictly
greater than sz; a request exactly equal to a class size lands in the next
class up, and the granted cell size strictly exceeds the request. -/
theorem alloc_class_strict_rule : ∀ (min2 sz : Nat), ∃ i,
    szceilLoop (sz + 1) (2 ^ min2) 0 sz = some (i, 2 ^ (min2 + i)) ∧
    sz < 2 ^ (min2 + i) ∧
    (∀ j, j < i → 2 ^ (min2 + j) ≤ sz) ∧
    ∀ k, sz = 2 ^ (min2 + k) → i = k + 1 := by
  intro min2 sz
  have hp : 0 < 2 ^ min2 := Nat.pos_pow_of_pos _ (by omega)
  have hfuel : sz < 2 ^ min2 * 2 ^ sz :=
    lt_of_lt_of_le (Nat.lt_two_pow sz) (Nat.le_mul_of_pos_left _ hp)
  obtain ⟨j, c, hj⟩ := szceilLoop_total sz (2 ^ min2) 0 sz hp hfuel
  obtain ⟨-, h2, h3, h4⟩ := szceilLoop_char (sz + 1) (2 ^ min2) 0 sz j c hj
  have hc : c = 2 ^ (min2 + j) := by rw [h2, ← pow_add]; simp
  refine ⟨j, hc ▸ hj, hc ▸ h3, ?_, ?_⟩
  · intro k hk
    have h5 := h4 k (Nat.zero_le k) hk
    rwa [Nat.sub_zero, ← pow_add] at h5
  · intro k hk
    have hkj : k < j := by
      have h6 : (2 : Nat) ^ (min2 + k) < 2 ^ (min2 + j) := hk ▸ hc ▸ h3
      have h7 := (Nat.pow_lt_pow_iff_right (by omega : 1 < 2)).mp h6
      omega
    by_contra hne
    have hlt : k + 1 < j := by omega
    have h8 := h4 (k + 1) (Nat.zero_le _) hlt
    rw [Nat.sub_zero, ← pow_add, hk] at h8
    have h9 : (2 : Nat) ^ (min2 + k) < 2 ^ (min2 + (k + 1)) :=
      (Nat.pow_lt_pow_iff_right (by omega : 1 < 2)).mpr (by omega)
    omega

/-- Claim C6 witness: the rule applied at min2 = 4 and the boundary request
sz = 16 = 2 to the 4, which must land in class 1 (cell size 32). -/
theorem alloc_class_strict_rule_witness : ∃ i,
    szceilLoop (16 + 1) (2 ^ 4) 0 16 = some (i, 2 ^ (4 + i)) ∧
    16 < 2 ^ (4 + i) ∧
    (∀ j, j < i → 2 ^ (4 + j) ≤ 16) ∧
    ∀ k, 16 = 2 ^ (4 + k) → i = k + 1 :=
  alloc_class_strict_rule 4 16

/-- Claim C7 counterexample: the claim quantifies over every cell size
greater than one pointer width, but for cellSize = 12 (greater than 8, not a
multiple of 8) the built chain does not link the cells of the claimed
partition: with base 1000 and 48 total bytes, the first word of cell 0 holds
1008, not the address 1012 of cell 1, and the slot the code itself treats as
cell 1 (word offset 1) holds 1016 while the slot it treats as cell 2 is at
1024. -/
theorem new_pool_unaligned_chain_broken :
    cresIsOk (mpool_new_pool 12 48 (fun _ => some 1000) mem0) = true ∧
    cresBase (mpool_new_pool 12 48 (fun _ => some 1000) mem0) = 1000 ∧
    cresMemAt (mpool_new_pool 12 48 (fun _ => some 1000) mem0) 1000 = 1008 ∧
    (1008 : Nat) ≠ 1000 + 12 ∧
    cresMemAt (mpool_new_pool 12 48 (fun _ => some 1000) mem0) 1008 = 1016 ∧
    (1016 : Nat) ≠ 1000 + 2 * 12 := by decide

/-- Claim C7 (amended): for a cell size that is a multiple of the pointer
width and greater than it, mpool_new_pool acquires max(cellSize, totalBytes)
bytes from the provider, returns the base address on success with the region
partitioned into totalBytes / cellSize cells, each cell holding the address
of the next and the last holding the null sentinel 0, and propagates an
acquisition failure as NULL. -/
theorem new_pool_builds_full_chain (sz total b s : Nat) (acq : Nat → Option Nat) (mem : Mem)
    (hsz : sz = ptrSize * s) (hgt : ptrSize < sz)
    (hacq : acq (mmapRequest sz total) = some b) (hb : b ≠ 0) :
    mmapRequest sz total = max sz total ∧
    (∀ acq2 mem2, acq2 (mmapRequest sz total) = none →
      mpool_new_pool sz total acq2 mem2 = .nullF) ∧
    ∃ m2, mpool_new_pool sz total acq mem = .ok (b, m2) ∧
      (∀ k, k + 1 < total / sz → m2 (b + k * sz) = b + (k + 1) * sz) ∧
      m2 (b + (total / sz - 1) * sz) = 0 := by
  have hsz8 : sz = 8 * s := by simpa [ptrSize] using hsz
  have hpos : 0 < sz := by omega
  refine ⟨?_, ?_, ?_⟩
  · unfold mmapRequest
    split <;> omega
  · intro acq2 mem2 h
    simp [mpool_new_pool, h]
  · refine ⟨_, new_pool_spec sz total b s acq mem hsz8 hgt hacq hb, ?_, ?_⟩
    · intro k hk
      rw [store_other]
      · exact chainWrites_read b sz hpos (total / sz) 0 mem k (Nat.zero_le _) (by omega)
      · intro heq
        have h1 : k * sz = (total / sz - 1) * sz := by omega
        have h2 : k = total / sz - 1 := Nat.eq_of_mul_eq_mul_right hpos h1
        omega
    · exact store_self _ _ _

/-- Claim C7 witness: the amended arena-construction theorem applied at
cellSize 16, 64 total bytes and base 992: four cells, three links and a null
terminator. -/
theorem new_pool_builds_full_chain_witness :
    mmapRequest 16 64 = max 16 64 ∧
    (∀ acq2 mem2, acq2 (mmapRequest 16 64) = none →
      mpool_new_pool 16 64 acq2 mem2 = .nullF) ∧
    ∃ m2, mpool_new_pool 16 64 (fun _ => some 992) mem0 = .ok (992, m2) ∧
      (∀ k, k + 1 < 64 / 16 → m2 (992 + k * 16) = 992 + (k + 1) * 16) ∧
      m2 (992 + (64 / 16 - 1) * 16) = 0 :=
  new_pool_builds_full_chain 16 64 992 2 (fun _ => some 992) mem0
    (by decide) (by decide) rfl (by decide)

/-- Claim C8: the claim states that teardown releases every registered arena
at its recorded size rounded up to a page and then releases both bookkeeping
arrays and the structure.  Evaluated on mpC8, mpool_free does unmap the
arenas that way (a sub-page arena at page size, a large arena at its own
size, NULL entries skipped), and releases the arena-pointer array and the
structure - but the parallel size array is never released: no call site in
mpool_free passes mp.sizes to MPOOL_FREE, so it leaks. -/
theorem teardown_leaks_size_array :
    mpool_free mpC8 = .ok c8acts ∧
    TdAction.releaseObj TdObj.psArray ∈ c8acts ∧
    TdAction.releaseObj TdObj.poolStruct ∈ c8acts ∧
    TdAction.releaseObj TdObj.sizesArray ∉ c8acts := by decide

/-- Claim C9: at sz exactly equal to max_pool the two operations disagree:
mpool_alloc takes the bypass (its test is sz at least max_pool), mmaps the
request and changes no allocator state, while mpool_repool with the same
size takes the free-list branch (its test is sz strictly greater than
max_pool): it unmaps nothing and pushes the pointer onto a size-class free
list, writing the old head into its first word. -/
theorem max_pool_boundary_asymmetry (mp : mpool) (mem : Mem) (p b : Nat)
    (m1 m2 : Nat → Option Nat) (rOk : Bool)
    (hm1 : m1 mp.max_pool = some b) (hp : p ≠ 0) (hhs : 0 < mp.hs.length) :
    mpool_alloc mp mem mp.max_pool m1 m2 rOk = (.ok b, mp, mem) ∧
    (mpool_repool mp mem p mp.max_pool).unmaps = [] ∧
    (mpool_repool mp mem p mp.max_pool).mp.hs = mp.hs.set 0 p ∧
    (mpool_repool mp mem p mp.max_pool).mem p = mp.hs.getD 0 0 ∧
    (mpool_repool mp mem p mp.max_pool).res = .ok () := by
  have hrp : mpool_repool mp mem p mp.max_pool =
      { mp := { mp with hs := mp.hs.set 0 p },
        mem := store mem p (mp.hs.getD 0 0),
        unmaps := [], res := .ok () } := by
    simp [mpool_repool, hp, hhs]
  refine ⟨?_, ?_, ?_, ?_, ?_⟩
  · simp [mpool_alloc, hm1]
  · rw [hrp]
  · rw [hrp]
  · rw [hrp]
    exact store_self _ _ _
  · rw [hrp]

/-- Claim C9 witness: the boundary theorem applied to mpC2 (max_pool 2048)
with the bypass mapping at 777000 and the repooled pointer 888000. -/
theorem max_pool_boundary_asymmetry_witness :
    mpool_alloc mpC2 mem0 mpC2.max_pool (fun _ => some 777000) (fun _ => none) true =
      (.ok 777000, mpC2, mem0) ∧
    (mpool_repool mpC2 mem0 888000 mpC2.max_pool).unmaps = [] ∧
    (mpool_repool mpC2 mem0 888000 mpC2.max_pool).mp.hs = mpC2.hs.set 0 888000 ∧
    (mpool_repool mpC2 mem0 888000 mpC2.max_pool).mem 888000 = mpC2.hs.getD 0 0 ∧
    (mpool_repool mpC2 mem0 888000 mpC2.max_pool).res = .ok () :=
  max_pool_boundary_asymmetry mpC2 mem0 888000 777000 (fun _ => some 777000)
    (fun _ => none) true rfl (by decide) (by decide)

/-- Claim C10: mpool_new_pool asserts that the cell size exceeds
sizeof(void *), so on a pool set fresh from mpool_init whose selected class
has cell size at most one pointer width (possible whenever 2 to the min2 is
at most 8, which the stated precondition min2 at least 0 permits), the first
allocation that maps to that class reaches the lazy arena build and violates
the assertion. -/
theorem tiny_class_assert_violation (min2 max2 pgsz sz i c b : Nat) (mem : Mem)
    (m1 m2 : Nat → Option Nat) (rOk : Bool)
    (hmm : min2 ≤ max2)
    (hsmall : 2 ^ min2 ≤ ptrSize)
    (hszlt : sz < 2 ^ max2)
    (hloop : szceilLoop (sz + 1) (2 ^ min2) 0 sz = some (i, c))
    (hc : c ≤ ptrSize)
    (hacq : m1 (mmapRequest c pgsz) = some b) (hb : b ≠ 0) :
    mpool_init min2 max2 pgsz true = .ok (initMP min2 max2 pgsz) ∧
    mpool_alloc (initMP min2 max2 pgsz) mem sz m1 m2 rOk =
      (.assertF, initMP min2 max2 pgsz, mem) := by
  obtain ⟨-, h2, h3, h4⟩ := szceilLoop_char (sz + 1) (2 ^ min2) 0 sz i c hloop
  have hcpos : 0 < c := by
    rw [h2]
    positivity
  have hct : i < max2 - min2 + 1 := by
    rcases Nat.eq_zero_or_pos i with rfl | hi
    · omega
    · have h5 := h4 (i - 1) (Nat.zero_le _) (by omega)
      rw [Nat.sub_zero, ← pow_add] at h5
      have h7 : (2 : Nat) ^ (min2 + (i - 1)) < 2 ^ max2 := lt_of_le_of_lt h5 hszlt
      have h8 : min2 + (i - 1) < max2 :=
        (Nat.pow_lt_pow_iff_right (by omega : 1 < 2)).mp h7
      omega
  have hnp : mpool_new_pool c pgsz m1 mem = .assertF := by
    simp only [mpool_new_pool, hacq, if_neg hb, if_pos hc]
  refine ⟨rfl, ?_⟩
  simp only [mpool_alloc, initMP, hloop]
  rw [if_neg (by omega : ¬(2 : Nat) ^ max2 ≤ sz)]
  rw [if_neg (by omega : ¬c = 0)]
  rw [if_pos (by simpa using hct)]
  rw [if_pos (getD_replicate 0 0 _ i hct)]
  rw [hnp]

/-- Claim C10 witness: min2 = 3 (cell size 8 = sizeof(void *), and min2 is
at least 0), max2 = 5, page size 64; allocating 5 bytes maps to class 0 and
the lazy arena build dies on the assert. -/
theorem tiny_class_assert_violation_witness :
    mpool_init 3 5 64 true = .ok (initMP 3 5 64) ∧
    mpool_alloc (initMP 3 5 64) mem0 5 (fun _ => some 70000) (fun _ => none) true =
      (.assertF, initMP 3 5 64, mem0) :=
  tiny_class_assert_violation 3 5 64 5 0 8 70000 mem0 (fun _ => some 70000)
    (fun _ => none) true (by decide) (by decide) (by decide) (by decide)
    (by decide) rfl (by decide)

end Mpool
